import Mathlib

/-!
Verification of the skill-flow-orchestrator scripts
(`scripts/match_skills.py`, `scripts/orchestrate.py`).

The Python code is shallowly embedded: every string operation is modelled
over `List Char` so that all definitions are executable and reducible by the
kernel; Python floats are modelled as rationals (the code only ever forms
them by the literal weights 0.4, 0.35, 0.25, 0.6 and divisions of small
integers); Python dicts that gain keys during a run are modelled as
structures with `Option` fields; in-place mutation and file persistence are
modelled by explicit state passing and a trace of persisted snapshots.
-/

namespace SFO

/-! ### Character classes, mirroring the regexes of `match_skills.py`.
`wordChar` is the ASCII reading of the regex word class used by the
word-boundary assertions; inputs are ASCII throughout this development. -/

def lowAlpha (c : Char) : Bool := 'a' ≤ c && c ≤ 'z'

def wordChar (c : Char) : Bool := c.isAlpha || c.isDigit || c = '_'

/-- Character class of the token body in the pattern used at
`match_skills.py` line 44: lowercase letter, digit or hyphen. -/
def tokChar (c : Char) : Bool := lowAlpha c || c.isDigit || c = '-'

/-! ### ASCII models of the Python string primitives used by the scripts.
The built-in `String` functions are byte-position based and do not reduce in
the kernel, so everything is done on `String.data`. -/

def strLower (s : String) : String := String.mk (s.data.map Char.toLower)

def strUpper (s : String) : String := String.mk (s.data.map Char.toUpper)

/-- Python slicing `s[:n]`. -/
def strTake (s : String) (n : Nat) : String := String.mk (s.data.take n)

/-- Python `s.replace('-', ' ')` (single-character replacement). -/
def replaceDash (s : String) : String :=
  String.mk (s.data.map (fun c => if c = '-' then ' ' else c))

/-- Whether `w` is an initial segment of `s`. -/
def leadsIn : List Char → List Char → Bool
  | [], _ => true
  | _ :: _, [] => false
  | a :: w, b :: s => a == b && leadsIn w s

/-- Python substring containment `w in s`. -/
def containsSub (w : List Char) : List Char → Bool
  | [] => leadsIn w []
  | c :: t => leadsIn w (c :: t) || containsSub w t

/-- Helper for `pySplitWs`: accumulates the current word reversed in `cur`. -/
def wsSplitGo : List Char → List Char → List (List Char)
  | cur, [] => if cur = [] then [] else [cur.reverse]
  | cur, c :: rest =>
    if c.isWhitespace then
      (if cur = [] then wsSplitGo [] rest else cur.reverse :: wsSplitGo [] rest)
    else wsSplitGo (c :: cur) rest

/-- Python `s.split()`: split on whitespace runs, dropping empty pieces. -/
def pySplitWs (s : String) : List String := (wsSplitGo [] s.data).map String.mk

/-! ### The tokenizer: `re.findall(r'\b[a-z][a-z0-9-]{2,}\b', task_lower)`
(`match_skills.py` line 44).  A match starts at a lowercase letter preceded
by a word boundary, greedily takes at least two further `tokChar`s, and
backtracks until the trailing word boundary holds.  `scan` carries whether
the previous character was a word character; the fuel argument only bounds
the recursion (each step consumes at least one character, so `length + 1`
fuel is never exhausted) and keeps the function structurally recursive. -/

/-- Word-boundary test between the last matched character and the following
character (`none` at end of input). -/
def boundaryOk (last : Char) (next : Option Char) : Bool :=
  match next with
  | none => wordChar last
  | some c => wordChar last != wordChar c

/-- Backtracking search for the largest `k ≥ 2` such that taking `k`
characters of the greedy run leaves a word boundary.  Returns the chosen
count and whether the last matched character is a word character. -/
def pickEnd (run afterRun : List Char) : Nat → Option (Nat × Bool)
  | 0 => none
  | 1 => none
  | (k+2) =>
    let last := run.getD (k+1) ' '
    let next : Option Char :=
      if k+2 < run.length then some (run.getD (k+2) ' ') else afterRun.head?
    if boundaryOk last next then some (k+2, wordChar last)
    else pickEnd run afterRun (k+1)

def scan : Nat → Bool → List Char → List (List Char)
  | 0, _, _ => []
  | _+1, _, [] => []
  | fuel+1, prevWord, c :: rest =>
    if lowAlpha c && !prevWord then
      let run := rest.takeWhile tokChar
      let afterRun := rest.dropWhile tokChar
      match pickEnd run afterRun run.length with
      | some (k, lw) => (c :: run.take k) :: scan fuel lw (run.drop k ++ afterRun)
      | none => scan fuel (wordChar c) rest
    else scan fuel (wordChar c) rest

/-- All matches of the token pattern in `s`, left to right, non-overlapping. -/
def pyFindall (s : List Char) : List String :=
  (scan (s.length + 1) false s).map String.mk

/-! ### The skill record.
A skill is a Python dict loaded from `skill_index.json`; during a matching
run `match_skills` mutates it in place, adding the keys `keyword_score`,
`ai_score`, `reason` and `final_score`.  The dict is modelled as a structure
whose scoring fields are `Option`s, absent keys being `none`. -/

structure Skill where
  name : String := ""
  description : String := ""
  keywords : List String := []
  keyword_score : Option ℚ := none
  ai_score : Option ℚ := none
  reason : Option String := none
  final_score : Option ℚ := none
deriving DecidableEq, Repr

/-- A freshly loaded catalog record: only the indexed fields are present. -/
def mkSkill (n d : String) (ks : List String) : Skill :=
  { name := n, description := d, keywords := ks }

/-! ### The lexical scorer `keyword_match` (`match_skills.py` lines 41-70). -/

/-- `task_words`: the set of tokens of the lowercased task. -/
def taskWords (task : String) : Finset String :=
  (pyFindall (strLower task).data).toFinset

/-- `keywords = set(skill.get('keywords', []))`. -/
def kwSet (skill : Skill) : Finset String := skill.keywords.toFinset

/-- `skill_name = skill.get('name', '').lower().replace('-', ' ')`. -/
def skillNameStr (skill : Skill) : String := replaceDash (strLower skill.name)

/-- `name_words = set(skill_name.split())`. -/
def nameWords (skill : Skill) : Finset String :=
  (pySplitWs (skillNameStr skill)).toFinset

/-- `description = skill.get('description', '').lower()`. -/
def descrLower (skill : Skill) : String := strLower skill.description

/-- Sub-score 1, skill-name overlap: `0.4 * (name_matches / len(name_words))`,
added only when `name_matches > 0`. -/
def nameSubscore (task : String) (skill : Skill) : ℚ :=
  if 0 < (taskWords task ∩ nameWords skill).card then
    (2/5 : ℚ) * (((taskWords task ∩ nameWords skill).card : ℚ) / ((nameWords skill).card : ℚ))
  else 0

/-- Sub-score 2, keyword overlap:
`0.35 * (keyword_matches / min(len(keywords), 20))`, added only when the
keyword set is non-empty. -/
def keywordSubscore (task : String) (skill : Skill) : ℚ :=
  if kwSet skill ≠ ∅ then
    (7/20 : ℚ) * (((taskWords task ∩ kwSet skill).card : ℚ) / ((min (kwSet skill).card 20 : ℕ) : ℚ))
  else 0

/-- `desc_matches = sum(1 for w in task_words if w in description)`. -/
def descMatchCount (task : String) (skill : Skill) : ℕ :=
  ((taskWords task).filter
    (fun w => containsSub w.data (descrLower skill).data = true)).card

/-- Sub-score 3, description containment:
`0.25 * min(desc_matches / len(task_words), 1.0)`, added only when the task
has tokens. -/
def descSubscore (task : String) (skill : Skill) : ℚ :=
  if taskWords task ≠ ∅ then
    (1/4 : ℚ) * min ((descMatchCount task skill : ℚ) / ((taskWords task).card : ℚ)) 1
  else 0

/-- The lexical scorer (`keyword_match` in `match_skills.py`): short-circuit
to `0.0` when both the keyword set and the processed skill name are empty,
otherwise the three weighted sub-scores summed and capped at `1.0`. -/
def keyword_match (task : String) (skill : Skill) : ℚ :=
  if kwSet skill = ∅ ∧ skillNameStr skill = "" then 0
  else min (nameSubscore task skill + keywordSubscore task skill + descSubscore task skill) 1

/-! ### The semantic ranking entries and the fusion engine
(`match_skills.py` lines 122-163).  An AI result is a parsed JSON object
`{"name": ..., "score": ..., "reason": ...}`; `score` and `reason` are read
with `.get` and so may be absent. -/

structure AIEntry where
  name : String
  score : Option ℚ := none
  reason : Option String := none
deriving DecidableEq, Repr

/-- `ai_scores = {r['name']: r for r in ai_results}` followed by the lookup
`ai_scores[name]`: the last entry with a given name wins. -/
def aiLookup (ai : List AIEntry) (nm : String) : Option AIEntry :=
  ai.reverse.find? (fun e => e.name == nm)

/-- Stable descending insertion by a rational key: strictly greater keys stay
in front, ties keep the earlier element first. -/
def insertDesc {α : Type} (key : α → ℚ) (x : α) : List α → List α
  | [] => [x]
  | y :: ys => if key x < key y then y :: insertDesc key x ys else x :: y :: ys

/-- Model of Python `sorted(l, key=key, reverse=True)`, which is a stable
descending sort. -/
def sortDesc {α : Type} (key : α → ℚ) : List α → List α
  | [] => []
  | x :: xs => insertDesc key x (sortDesc key xs)

/-- Step 1 of `match_skills`: `skill['keyword_score'] = keyword_match(task, skill)`
for every catalog record (in-place mutation, modelled functionally). -/
def scoreStep (task : String) (skills : List Skill) : List Skill :=
  skills.map (fun s => { s with keyword_score := some (keyword_match task s) })

/-- Step 2 of `match_skills`: merge AI scores when AI was requested and the
ranker returned entries.  When the ranking names the skill:
`final = 0.4*keyword + 0.6*ai`, rationale copied; otherwise
`ai_score = 0` and `final = keyword * 0.4`.  When AI was requested but the
ranking is empty, nothing is assigned.  When AI is disabled,
`final_score = keyword_score`. -/
def fuse (use_ai : Bool) (ai : List AIEntry) (skills : List Skill) : List Skill :=
  if use_ai then
    if ai.isEmpty then skills
    else
      skills.map (fun s =>
        match aiLookup ai s.name with
        | some e =>
          { s with ai_score := some (e.score.getD 0),
                   reason := some (e.reason.getD ""),
                   final_score := some ((2/5 : ℚ) * s.keyword_score.getD 0
                                        + (3/5 : ℚ) * e.score.getD 0) }
        | none =>
          { s with ai_score := some 0,
                   final_score := some (s.keyword_score.getD 0 * (2/5 : ℚ)) })
  else
    skills.map (fun s => { s with final_score := s.keyword_score })

/-- `match_skills(task, use_ai)` with the catalog (the loaded skill index)
and the semantic ranker's reply passed explicitly: score lexically, sort by
keyword score, fuse with the AI ranking, sort by final score (missing final
scores sort as 0). -/
def match_skills (catalog : List Skill) (task : String) (use_ai : Bool)
    (ai : List AIEntry) : List Skill :=
  if catalog.isEmpty then []
  else
    let scored := scoreStep task catalog
    let bySorted := sortDesc (fun s => s.keyword_score.getD 0) scored
    let fused := fuse use_ai ai bySorted
    sortDesc (fun s => s.final_score.getD 0) fused

/-! ### The semantic ranker adapter `semantic_match_gemini`
(`match_skills.py` lines 73-119).  The fallible external operations — the
library import, the environment lookup, the API call and `json.loads` — are
modelled as fields of an environment record; the adapter's own control flow
(every failure is caught and degrades to the empty list) is translated
faithfully. -/

structure GeminiEnv where
  /-- Whether `from google import genai` succeeds. -/
  genai_available : Bool
  /-- `os.getenv('GEMINI_API_KEY') or os.getenv('GOOGLE_API_KEY')`. -/
  api_key : Option String
  /-- Outcome of `client.models.generate_content(...)`: the response text, or
  the exception message. -/
  response : Except String String
  /-- Behaviour of `json.loads` on the cleaned text: parsed entries, or the
  exception message. -/
  parse : String → Except String (List AIEntry)

/-- Python `str.strip()`. -/
def pyStrip (s : String) : String :=
  String.mk ((s.data.dropWhile Char.isWhitespace).reverse.dropWhile Char.isWhitespace |>.reverse)

/-- `re.sub(r'^```json\s*', '', text)`: drop a leading code fence and the
whitespace after it. -/
def dropLeadFence (s : String) : String :=
  if leadsIn "\x60\x60\x60json".data s.data then
    String.mk ((s.data.drop 7).dropWhile Char.isWhitespace)
  else s

/-- `re.sub(r'\s*```$', '', text)`: drop a trailing code fence and the
whitespace before it (the input reaching this point has no trailing
whitespace, so `$` is the end of the string). -/
def dropTailFence (s : String) : String :=
  if leadsIn "\x60\x60\x60".data.reverse s.data.reverse then
    String.mk (((s.data.reverse.drop 3).dropWhile Char.isWhitespace).reverse)
  else s

/-- The response-cleaning pipeline applied to `response.text`. -/
def stripFences (s : String) : String := dropTailFence (dropLeadFence (pyStrip s))

/-- The adapter: every failure path returns `[]` instead of propagating. -/
def semantic_match_gemini (env : GeminiEnv) : List AIEntry :=
  if !env.genai_available then []
  else
    match env.api_key with
    | none => []
    | some _ =>
      match env.response with
      | .error _ => []
      | .ok text =>
        match env.parse (stripFences text) with
        | .error _ => []
        | .ok entries => entries

/-! ### The orchestrator (`orchestrate.py`).
File persistence and logging are modelled as traces carried in the run
state: `saved` is the sequence of snapshots written by `_save_context`, and
`events` records, in order, the log lines, the invocations of the matcher,
the executed skills and the executed templates. -/

structure ExecutionContext where
  task : String
  mode : String
  started_at : String
  current_step : Nat := 0
  total_steps : Nat := 0
  outputs : List (String × String) := []
  errors : List String := []
deriving DecidableEq, Repr

structure DAGNode where
  id : String
  skill : String
  depends : List String := []
  completed : Bool := false
  output : Option String := none
deriving DecidableEq, Repr

structure Template where
  name : String
  description : String
  trigger_patterns : List String
  dag : List DAGNode
  created_at : String
deriving DecidableEq, Repr

inductive Event where
  | logged (mode msg : String)
  | matchInvoked (task : String)
  | skillExecuted (skillName : String)
  | templateExecuted (templateName : String)
deriving DecidableEq, Repr

structure RunState where
  mode : String
  ctx : ExecutionContext
  dag : List DAGNode := []
  saved : List ExecutionContext := []
  events : List Event := []
  templatesSaved : List Template := []
deriving DecidableEq, Repr

/-- Python dict assignment `outputs[k] = v`: overwrite in place, else append. -/
def upsert (l : List (String × String)) (k v : String) : List (String × String) :=
  if l.any (fun p => p.1 == k) then l.map (fun p => if p.1 == k then (k, v) else p)
  else l ++ [(k, v)]

/-- `_save_context`: persist the current context. -/
def save_context (st : RunState) : RunState :=
  { st with saved := st.saved ++ [st.ctx] }

/-- `_log_execution`. -/
def log_execution (msg : String) (st : RunState) : RunState :=
  { st with events := st.events ++ [Event.logged st.mode msg] }

/-- `compose_dag`, inner loop: `i` is the running index, `prev` the previous
node's id (`None` before the first node). -/
def compose_dag_go (i : Nat) (prev : Option String) : List Skill → List DAGNode
  | [] => []
  | s :: rest =>
    let node : DAGNode :=
      { id := "n" ++ toString i, skill := s.name,
        depends := match prev with
                   | some p => if p = "" then [] else [p]
                   | none => [] }
    node :: compose_dag_go (i + 1) (some node.id) rest

/-- `Orchestrator.compose_dag` (`orchestrate.py` lines 90-104). -/
def compose_dag (skills : List Skill) : List DAGNode := compose_dag_go 0 none skills

/-- `Orchestrator.execute_skill` (`orchestrate.py` lines 106-121): log, emit
the placeholder output, mark the node completed, record the output in the
context, increment `current_step` and persist. -/
def execute_skill (node : DAGNode) (st : RunState) : DAGNode × RunState :=
  let st := log_execution ("Executing skill: " ++ node.skill) st
  let st := { st with events := st.events ++ [Event.skillExecuted node.skill] }
  let output := "Skill \x27" ++ node.skill ++ "\x27 executed successfully"
  let node := { node with completed := true, output := some output }
  let st := { st with ctx :=
    { st.ctx with outputs := upsert st.ctx.outputs node.id output,
                  current_step := st.ctx.current_step + 1 } }
  (node, save_context st)

/-- Execute a chain of nodes in order (`for node in self.dag: ...`),
returning the mutated nodes. -/
def exec_chain (nodes : List DAGNode) (st : RunState) : List DAGNode × RunState :=
  match nodes with
  | [] => ([], st)
  | n :: rest =>
    let (n2, st2) := execute_skill n st
    let (rest2, st3) := exec_chain rest st2
    (n2 :: rest2, st3)

/-- `run_quick` (`orchestrate.py` lines 123-139): match, pick the top skill,
execute a single fresh node.  Note that `total_steps` is never assigned. -/
def run_quick (catalog : List Skill) (ai : List AIEntry) (task : String)
    (st : RunState) : RunState :=
  let st := { st with events := st.events ++ [Event.matchInvoked task] }
  match match_skills catalog task true ai with
  | [] => st
  | top :: _ =>
    let node : DAGNode := { id := "n0", skill := top.name }
    (execute_skill node st).2

/-- `run_standard` (`orchestrate.py` lines 141-161): top three skills,
compose the chain, set `total_steps`, execute every node. -/
def run_standard (catalog : List Skill) (ai : List AIEntry) (task : String)
    (st : RunState) : RunState :=
  let st := { st with events := st.events ++ [Event.matchInvoked task] }
  let skills := (match_skills catalog task true ai).take 3
  if skills.isEmpty then st
  else
    let dag := compose_dag skills
    let st := { st with dag := dag, ctx := { st.ctx with total_steps := dag.length } }
    let (dag2, st2) := exec_chain dag st
    { st2 with dag := dag2 }

/-- `_save_template` (`orchestrate.py` lines 223-240); the timestamp is the
`now` parameter. -/
def save_template (now : String) (task : String) (st : RunState) : RunState :=
  let tpl : Template :=
    { name := "auto-" ++ now, description := strTake task 100,
      trigger_patterns := [strTake task 50], dag := st.dag, created_at := now }
  let st := { st with templatesSaved := st.templatesSaved ++ [tpl] }
  log_execution ("Saved template: " ++ tpl.name) st

/-- `run_deep` (`orchestrate.py` lines 163-186): top five skills, compose,
set `total_steps`, execute, save a template. -/
def run_deep (now : String) (catalog : List Skill) (ai : List AIEntry)
    (task : String) (st : RunState) : RunState :=
  let st := { st with events := st.events ++ [Event.matchInvoked task] }
  let skills := (match_skills catalog task true ai).take 5
  if skills.isEmpty then st
  else
    let dag := compose_dag skills
    let st := { st with dag := dag, ctx := { st.ctx with total_steps := dag.length } }
    let (dag2, st2) := exec_chain dag st
    save_template now task { st2 with dag := dag2 }

/-- `_find_template` (`orchestrate.py` lines 202-215): first stored template
one of whose trigger patterns is a case-insensitive substring of the task. -/
def find_template (templates : List Template) (task : String) : Option Template :=
  templates.find? (fun tpl =>
    tpl.trigger_patterns.any (fun p =>
      containsSub (strLower p).data (strLower task).data))

/-- `_execute_template` (`orchestrate.py` lines 217-221): the stored plan is
not stepped through; the template execution is a print plus a log line. -/
def execute_template (tpl : Template) (st : RunState) : RunState :=
  let st := { st with events := st.events ++ [Event.templateExecuted tpl.name] }
  log_execution ("Executed template: " ++ tpl.name) st

/-- `run_expert` (`orchestrate.py` lines 188-200). -/
def run_expert (templates : List Template) (now : String) (catalog : List Skill)
    (ai : List AIEntry) (task : String) (st : RunState) : RunState :=
  match find_template templates task with
  | some tpl => execute_template tpl st
  | none => run_deep now catalog ai task st

/-- `Orchestrator.run` (`orchestrate.py` lines 242-263): build a fresh
context, persist it, log the start, dispatch on the (upper-cased) mode, and
log completion — except for an unknown mode, which returns early. -/
def run (templates : List Template) (catalog : List Skill) (ai : List AIEntry)
    (mode now task : String) : RunState :=
  let m := strUpper mode
  let ctx : ExecutionContext := { task := task, mode := m, started_at := now }
  let st : RunState := { mode := m, ctx := ctx }
  let st := save_context st
  let st := log_execution ("Started orchestration: " ++ strTake task 50) st
  if m = "QUICK" then log_execution "Completed orchestration" (run_quick catalog ai task st)
  else if m = "STANDARD" then log_execution "Completed orchestration" (run_standard catalog ai task st)
  else if m = "DEEP" then log_execution "Completed orchestration" (run_deep now catalog ai task st)
  else if m = "EXPERT" then log_execution "Completed orchestration" (run_expert templates now catalog ai task st)
  else st

/-! ### Concrete inputs used by counterexamples and witnesses. -/

/-- A task whose token set has 21 elements. -/
def task21 : String :=
  "aaa aab aac aad aae aaf aag aah aai aaj aak aal aam aan aao aap aaq aar aas aat aau"

/-- A skill whose 21 keywords are exactly the 21 tokens of `task21`. -/
def sk21 : Skill :=
  mkSkill "sk-in-question" ""
    ["aaa", "aab", "aac", "aad", "aae", "aaf", "aag", "aah", "aai", "aaj",
     "aak", "aal", "aam", "aan", "aao", "aap", "aaq", "aar", "aas", "aat", "aau"]

/-- A skill with exactly 20 distinct keywords. -/
def skW : Skill :=
  mkSkill "w" ""
    ["aaa", "aab", "aac", "aad", "aae", "aaf", "aag", "aah", "aai", "aaj",
     "aak", "aal", "aam", "aan", "aao", "aap", "aaq", "aar", "aas", "aat"]

/-- A skill for which all three division guards of the lexical scorer fire. -/
def skC10 : Skill := mkSkill "react" "" ["app"]

/-- The per-record action of `fuse` (the body of the Python merge loops). -/
def fuseOne (use_ai : Bool) (ai : List AIEntry) (s : Skill) : Skill :=
  if use_ai then
    if ai.isEmpty then s
    else
      match aiLookup ai s.name with
      | some e =>
        { s with ai_score := some (e.score.getD 0),
                 reason := some (e.reason.getD ""),
                 final_score := some ((2/5 : ℚ) * s.keyword_score.getD 0
                                      + (3/5 : ℚ) * e.score.getD 0) }
      | none =>
        { s with ai_score := some 0,
                 final_score := some (s.keyword_score.getD 0 * (2/5 : ℚ)) }
  else { s with final_score := s.keyword_score }

/-- The projection of a skill record to its immutable catalog fields. -/
def baseOf (s : Skill) : String × String × List String :=
  (s.name, s.description, s.keywords)

/-- A catalog record with a non-zero lexical score for the task `"react"`,
used by the C2 counterexample and witnesses. -/
def skR : Skill := mkSkill "react" "" []

/-- The record `skR` as mutated by a `use_ai = False` matching run. -/
def wr2 : Skill :=
  { name := "react", description := "", keywords := [],
    keyword_score := some (keyword_match "react" skR),
    final_score := some (keyword_match "react" skR) }

/-- The record `skR` as mutated by a `use_ai = True` run whose semantic
ranking came back empty: `final_score` is never assigned. -/
def wrb : Skill :=
  { name := "react", description := "", keywords := [],
    keyword_score := some (keyword_match "react" skR) }

/-- A semantic ranking entry for `skR`. -/
def ai3 : AIEntry := { name := "react", score := some (9/10), reason := some "close match" }

/-- The record `skR` as mutated by a run fusing with the ranking `[ai3]`. -/
def wr3 : Skill :=
  { name := "react", description := "", keywords := [],
    keyword_score := some (keyword_match "react" skR),
    ai_score := some (9/10),
    reason := some "close match",
    final_score := some ((2/5 : ℚ) * keyword_match "react" skR + (3/5 : ℚ) * (9/10)) }

/-- A catalog record used by the C6 counterexample. -/
def sk6 : Skill := mkSkill "alpha-skill" "alpha things" ["alpha"]

/-- Event classifier: is this a skill execution? -/
def isSkillExecuted : Event → Bool
  | Event.skillExecuted _ => true
  | _ => false

/-- Event classifier: is this an invocation of the matching pipeline? -/
def isMatchInvoked : Event → Bool
  | Event.matchInvoked _ => true
  | _ => false

/-- A stored template whose trigger pattern `"Deploy"` matches the task
`"please DEPLOY now"` case-insensitively; its stored plan has two nodes. -/
def tpl5 : Template :=
  { name := "tpl-react", description := "react deploys",
    trigger_patterns := ["Deploy"],
    dag := [{ id := "n0", skill := "s0" }, { id := "n1", skill := "s1", depends := ["n0"] }],
    created_at := "t" }

/-- Adapter environment: the genai library import fails. -/
def envNoLib : GeminiEnv :=
  { genai_available := false, api_key := some "k",
    response := Except.ok "x", parse := fun _ => Except.ok [] }

/-- Adapter environment: no API key in the environment. -/
def envNoKey : GeminiEnv :=
  { genai_available := true, api_key := none,
    response := Except.ok "x", parse := fun _ => Except.ok [] }

/-- Adapter environment: the API call raises. -/
def envApiErr : GeminiEnv :=
  { genai_available := true, api_key := some "k",
    response := Except.error "network down", parse := fun _ => Except.ok [] }

/-- Adapter environment: the response is not valid JSON. -/
def envBadJson : GeminiEnv :=
  { genai_available := true, api_key := some "k",
    response := Except.ok "not json at all", parse := fun _ => Except.error "bad json" }

/-- Adapter environment: everything succeeds with an empty parsed array. -/
def envOk : GeminiEnv :=
  { genai_available := true, api_key := some "k",
    response := Except.ok "[]", parse := fun _ => Except.ok [] }

end SFO

namespace SFO

/-! ## Theorems -/

/-! ### Helper lemmas about the lexical scorer. -/

lemma nameSubscore_nonneg (task : String) (skill : Skill) :
    0 ≤ nameSubscore task skill := by
  unfold nameSubscore
  split
  · positivity
  · exact le_rfl

lemma keywordSubscore_nonneg (task : String) (skill : Skill) :
    0 ≤ keywordSubscore task skill := by
  unfold keywordSubscore
  split
  · positivity
  · exact le_rfl

lemma descSubscore_nonneg (task : String) (skill : Skill) :
    0 ≤ descSubscore task skill := by
  unfold descSubscore
  split
  · exact mul_nonneg (by norm_num) (le_min (by positivity) zero_le_one)
  · exact le_rfl

lemma keyword_match_nonneg (task : String) (skill : Skill) :
    0 ≤ keyword_match task skill := by
  unfold keyword_match
  split
  · exact le_rfl
  · exact le_min
      (add_nonneg (add_nonneg (nameSubscore_nonneg task skill)
        (keywordSubscore_nonneg task skill)) (descSubscore_nonneg task skill))
      zero_le_one

lemma keyword_match_le_one (task : String) (skill : Skill) :
    keyword_match task skill ≤ 1 := by
  unfold keyword_match
  split
  · exact zero_le_one
  · exact min_le_right _ _

/-- C7: for every task string, a skill record with empty name and empty
keyword set receives lexical score exactly `0.0`, regardless of its
description content — the scorer short-circuits before the description
sub-score can contribute. -/
theorem C7_empty_name_and_keywords_score_zero (task desc : String) :
    keyword_match task (mkSkill "" desc []) = 0 := by
  unfold keyword_match
  rw [if_pos]
  constructor
  · simp [kwSet, mkSkill]
  · rfl

/-- C4 (amended): the lexical score always lies in `[0,1]`; the name
sub-score is bounded by its weight `0.40` and the description sub-score by
its weight `0.25`; the keyword sub-score is bounded by its weight `0.35`
whenever the skill has at most 20 distinct keywords, and with `K ≥ 20`
distinct keywords it is bounded by `0.35 * K / 20` (which exceeds `0.35`
when `K > 20`). -/
theorem C4_lexical_score_bounds (task : String) (skill : Skill) :
    0 ≤ keyword_match task skill ∧ keyword_match task skill ≤ 1 ∧
    nameSubscore task skill ≤ 2/5 ∧ descSubscore task skill ≤ 1/4 ∧
    ((kwSet skill).card ≤ 20 → keywordSubscore task skill ≤ 7/20) ∧
    (20 ≤ (kwSet skill).card →
      keywordSubscore task skill ≤ (7/20 : ℚ) * ((kwSet skill).card : ℚ) / 20) := by
  refine ⟨keyword_match_nonneg task skill, keyword_match_le_one task skill, ?_, ?_, ?_, ?_⟩
  · unfold nameSubscore
    split
    · rename_i h
      have hcard : (taskWords task ∩ nameWords skill).card ≤ (nameWords skill).card :=
        Finset.card_le_card Finset.inter_subset_right
      have hpos : (0 : ℚ) < ((nameWords skill).card : ℚ) := by
        exact_mod_cast lt_of_lt_of_le h hcard
      have h1 : (((taskWords task ∩ nameWords skill).card : ℚ) / ((nameWords skill).card : ℚ)) ≤ 1 :=
        (div_le_one hpos).mpr (by exact_mod_cast hcard)
      calc (2/5 : ℚ) * (((taskWords task ∩ nameWords skill).card : ℚ) / ((nameWords skill).card : ℚ))
          ≤ (2/5 : ℚ) * 1 := mul_le_mul_of_nonneg_left h1 (by norm_num)
        _ = 2/5 := by norm_num
    · norm_num
  · unfold descSubscore
    split
    · calc (1/4 : ℚ) * min ((descMatchCount task skill : ℚ) / ((taskWords task).card : ℚ)) 1
          ≤ (1/4 : ℚ) * 1 := mul_le_mul_of_nonneg_left (min_le_right _ _) (by norm_num)
        _ = 1/4 := by norm_num
    · norm_num
  · intro hle
    unfold keywordSubscore
    split
    · rename_i h
      have hminand : min (kwSet skill).card 20 = (kwSet skill).card := Nat.min_eq_left hle
      have hpos : 0 < (kwSet skill).card :=
        Finset.card_pos.mpr (Finset.nonempty_iff_ne_empty.mpr h)
      have hcard : (taskWords task ∩ kwSet skill).card ≤ (kwSet skill).card :=
        Finset.card_le_card Finset.inter_subset_right
      rw [hminand]
      have h1 : (((taskWords task ∩ kwSet skill).card : ℚ) / ((kwSet skill).card : ℚ)) ≤ 1 :=
        (div_le_one (by exact_mod_cast hpos)).mpr (by exact_mod_cast hcard)
      calc (7/20 : ℚ) * (((taskWords task ∩ kwSet skill).card : ℚ) / ((kwSet skill).card : ℚ))
          ≤ (7/20 : ℚ) * 1 := mul_le_mul_of_nonneg_left h1 (by norm_num)
        _ = 7/20 := by norm_num
    · norm_num
  · intro hge
    unfold keywordSubscore
    split
    · have hminand : min (kwSet skill).card 20 = 20 := Nat.min_eq_right hge
      have hcard : ((taskWords task ∩ kwSet skill).card : ℚ) ≤ ((kwSet skill).card : ℚ) := by
        have h0 : (taskWords task ∩ kwSet skill).card ≤ (kwSet skill).card :=
          Finset.card_le_card Finset.inter_subset_right
        exact_mod_cast h0
      rw [hminand, mul_div_assoc]
      have h20 : ((20 : ℕ) : ℚ) = (20 : ℚ) := by norm_num
      rw [h20]
      gcongr
    · positivity

/-- C4 counterexample: for a skill with 21 distinct keywords, all present in
the task's token set, the keyword sub-score is `0.35 * 21/20 = 0.3675`,
exceeding its weight `0.35` — so the sub-scores are not all individually
bounded by their weights before summation. -/
theorem C4_counterexample : ¬ (keywordSubscore task21 sk21 ≤ 7/20) := by
  have hm : (taskWords task21 ∩ kwSet sk21).card = 21 := by decide
  have hd : (kwSet sk21).card = 21 := by decide
  have hne : kwSet sk21 ≠ ∅ := by decide
  unfold keywordSubscore
  rw [if_pos hne, hm, hd]
  norm_num

/-- Witness for `C4_lexical_score_bounds` at a skill with exactly 20
keywords, discharging both cardinality hypotheses. -/
theorem C4_lexical_score_bounds_witness :
    keywordSubscore "aaa" skW ≤ 7/20 ∧
    keywordSubscore "aaa" skW ≤ (7/20 : ℚ) * ((kwSet skW).card : ℚ) / 20 :=
  ⟨(C4_lexical_score_bounds "aaa" skW).2.2.2.2.1 (by decide),
   (C4_lexical_score_bounds "aaa" skW).2.2.2.2.2 (by decide)⟩

/-- C10: the lexical scorer is total — each division is guarded so that its
denominator is positive whenever the division is evaluated (name overlap
requires a non-empty name-word set, keyword overlap a non-empty keyword set,
description containment a non-empty task token set), and the result is
always a defined, non-negative rational. -/
theorem C10_division_guards (task : String) (skill : Skill) :
    (0 < (taskWords task ∩ nameWords skill).card → 0 < (nameWords skill).card) ∧
    (kwSet skill ≠ ∅ → 0 < min (kwSet skill).card 20) ∧
    (taskWords task ≠ ∅ → 0 < (taskWords task).card) ∧
    0 ≤ keyword_match task skill := by
  refine ⟨?_, ?_, ?_, keyword_match_nonneg task skill⟩
  · intro h
    exact lt_of_lt_of_le h (Finset.card_le_card Finset.inter_subset_right)
  · intro h
    have hpos : 0 < (kwSet skill).card :=
      Finset.card_pos.mpr (Finset.nonempty_iff_ne_empty.mpr h)
    omega
  · intro h
    exact Finset.card_pos.mpr (Finset.nonempty_iff_ne_empty.mpr h)

/-- Witness for `C10_division_guards` at a task and skill for which all
three guards fire. -/
theorem C10_division_guards_witness :
    0 < (nameWords skC10).card ∧ 0 < min (kwSet skC10).card 20 ∧
    0 < (taskWords "react app").card :=
  ⟨(C10_division_guards "react app" skC10).1 (by decide),
   (C10_division_guards "react app" skC10).2.1 (by decide),
   (C10_division_guards "react app" skC10).2.2.1 (by decide)⟩

/-! ### Helper lemmas about the fusion pipeline. -/

lemma insertDesc_perm {α : Type} (key : α → ℚ) (x : α) (l : List α) :
    (insertDesc key x l).Perm (x :: l) := by
  induction l with
  | nil => exact List.Perm.refl _
  | cons y ys ih =>
    unfold insertDesc
    split
    · exact (List.Perm.cons y ih).trans (List.Perm.swap x y ys)
    · exact List.Perm.refl _

lemma sortDesc_perm {α : Type} (key : α → ℚ) (l : List α) :
    (sortDesc key l).Perm l := by
  induction l with
  | nil => exact List.Perm.refl _
  | cons x xs ih =>
    exact (insertDesc_perm key x (sortDesc key xs)).trans (List.Perm.cons x ih)

lemma mem_sortDesc {α : Type} {key : α → ℚ} {l : List α} {a : α} :
    a ∈ sortDesc key l ↔ a ∈ l :=
  (sortDesc_perm key l).mem_iff

lemma fuse_eq_map (use_ai : Bool) (ai : List AIEntry) (skills : List Skill) :
    fuse use_ai ai skills = skills.map (fuseOne use_ai ai) := by
  cases use_ai with
  | false => rfl
  | true =>
    unfold fuse fuseOne
    by_cases h : ai.isEmpty
    · simp [h]
    · simp [h]

lemma baseOf_fuseOne (use_ai : Bool) (ai : List AIEntry) (s : Skill) :
    baseOf (fuseOne use_ai ai s) = baseOf s := by
  unfold fuseOne
  cases use_ai with
  | false => rfl
  | true =>
    by_cases h : ai.isEmpty
    · simp [h]
    · simp only [h, Bool.false_eq_true, if_false, if_true]
      cases aiLookup ai s.name with
      | some e => rfl
      | none => rfl

/-- Every record of the matching output originates from a catalog record:
it is that record with its keyword score attached, passed through the
fusion step. -/
lemma mem_match_skills {catalog : List Skill} {task : String} {use_ai : Bool}
    {ai : List AIEntry} {r : Skill}
    (hr : r ∈ match_skills catalog task use_ai ai) :
    ∃ s ∈ catalog,
      r = fuseOne use_ai ai { s with keyword_score := some (keyword_match task s) } := by
  unfold match_skills at hr
  split at hr
  · simp at hr
  · rw [mem_sortDesc, fuse_eq_map, List.mem_map] at hr
    obtain ⟨q, hq, rfl⟩ := hr
    rw [mem_sortDesc] at hq
    unfold scoreStep at hq
    rw [List.mem_map] at hq
    obtain ⟨s, hs, rfl⟩ := hq
    exact ⟨s, hs, rfl⟩

/-- The lexical scorer only reads the catalog fields of the record. -/
lemma keyword_match_mkSkill (task : String) (s : Skill) :
    keyword_match task (mkSkill s.name s.description s.keywords) = keyword_match task s := rfl

/-- Concrete evaluation of the lexical scorer on the record `skR`. -/
lemma keyword_match_skR : keyword_match "react" skR = 2/5 := by
  have h1 : (taskWords "react" ∩ nameWords skR).card = 1 := by decide
  have h2 : (nameWords skR).card = 1 := by decide
  have h3 : descMatchCount "react" skR = 0 := by decide
  have h4 : (taskWords "react").card = 1 := by decide
  have h5 : taskWords "react" ≠ ∅ := by decide
  have h6 : ¬ (kwSet skR ≠ ∅) := by decide
  have h7 : ¬ (kwSet skR = ∅ ∧ skillNameStr skR = "") := by decide
  unfold keyword_match nameSubscore keywordSubscore descSubscore
  rw [if_neg h7, h1, h2, h3, h4, if_pos (by norm_num : 0 < 1), if_neg h6, if_pos h5]
  norm_num

/-- C2 counterexample: with AI requested but an empty semantic ranking, the
sole candidate's `final_score` is never assigned (it is `None`, treated as 0
by the final sort), while its lexical score is `2/5` — so `finalScore` is
not `0.4 * lexicalScore = 4/25`. -/
theorem C2_counterexample :
    ((match_skills [skR] "react" true []).map (fun r => r.final_score)) = [none] ∧
    keyword_match "react" skR = 2/5 :=
  ⟨rfl, keyword_match_skR⟩

/-- C2 (amended): when AI is disabled by the caller, every output record's
`final_score` equals its lexical score exactly; when AI was requested but
the ranker returned an empty sequence, `final_score` is never assigned (it
stays absent on a freshly loaded catalog), and is therefore treated as `0`
by the final sort — not as `0.4 * lexicalScore`. -/
theorem C2_fusion_fallback (catalog : List Skill) (task : String) (ai : List AIEntry) :
    (∀ r ∈ match_skills catalog task false ai,
        r.final_score = some (keyword_match task (mkSkill r.name r.description r.keywords))) ∧
    ((∀ s ∈ catalog, s.final_score = none) →
      ∀ r ∈ match_skills catalog task true [],
        r.final_score = none) := by
  constructor
  · intro r hr
    obtain ⟨s, _, rfl⟩ := mem_match_skills hr
    rfl
  · intro hfresh r hr
    obtain ⟨s, hs, rfl⟩ := mem_match_skills hr
    exact hfresh s hs

/-- Witness for `C2_fusion_fallback` on the one-record catalog `[skR]`. -/
theorem C2_fusion_fallback_witness :
    wr2.final_score = some (keyword_match "react" (mkSkill wr2.name wr2.description wr2.keywords)) ∧
    wrb.final_score = none := by
  constructor
  · have hm : wr2 ∈ match_skills [skR] "react" false [] := by
      have h : match_skills [skR] "react" false [] = [wr2] := rfl
      rw [h]
      exact List.mem_singleton.mpr rfl
    exact (C2_fusion_fallback [skR] "react" []).1 wr2 hm
  · have hm : wrb ∈ match_skills [skR] "react" true [] := by
      have h : match_skills [skR] "react" true [] = [wrb] := rfl
      rw [h]
      exact List.mem_singleton.mpr rfl
    have hfresh : ∀ s ∈ [skR], s.final_score = none := by
      intro s hs
      rw [List.mem_singleton] at hs
      subst hs
      rfl
    exact (C2_fusion_fallback [skR] "react" []).2 hfresh wrb hm

/-- C3: whenever the semantic ranking is non-empty and names a skill (the
last entry for that name winning, as with a Python dict), the fused
`final_score` is exactly `0.4 * lexicalScore + 0.6 * semanticScore`, and the
rationale text is copied from that semantic entry. -/
theorem C3_semantic_fusion (catalog : List Skill) (task : String) (ai : List AIEntry)
    (r : Skill) (e : AIEntry) (sc : ℚ) (re : String)
    (hai : ai ≠ [])
    (hr : r ∈ match_skills catalog task true ai)
    (hlook : aiLookup ai r.name = some e)
    (hsc : e.score = some sc) (hre : e.reason = some re) :
    r.final_score
      = some ((2/5 : ℚ) * keyword_match task (mkSkill r.name r.description r.keywords)
              + (3/5 : ℚ) * sc) ∧
    r.reason = some re := by
  obtain ⟨s, _, rfl⟩ := mem_match_skills hr
  cases ai with
  | nil => exact absurd rfl hai
  | cons a as =>
    set q : Skill := { s with keyword_score := some (keyword_match task s) } with hq
    cases haiq : aiLookup (a :: as) q.name with
    | some e2 =>
      have hone : fuseOne true (a :: as) q
          = { q with ai_score := some (e2.score.getD 0),
                     reason := some (e2.reason.getD ""),
                     final_score := some ((2/5 : ℚ) * q.keyword_score.getD 0
                                          + (3/5 : ℚ) * e2.score.getD 0) } := by
        unfold fuseOne
        rw [if_pos rfl, if_neg (by simp), haiq]
      rw [hone] at hlook ⊢
      simp only at hlook
      rw [haiq] at hlook
      injection hlook with he
      subst he
      rw [hsc, hre]
      exact ⟨rfl, rfl⟩
    | none =>
      have hone : fuseOne true (a :: as) q
          = { q with ai_score := some 0,
                     final_score := some (q.keyword_score.getD 0 * (2/5 : ℚ)) } := by
        unfold fuseOne
        rw [if_pos rfl, if_neg (by simp), haiq]
      rw [hone] at hlook
      simp only at hlook
      rw [haiq] at hlook
      exact absurd hlook (by simp)

/-- Witness for `C3_semantic_fusion`: the catalog `[skR]` fused with the
one-entry ranking `[ai3]`. -/
theorem C3_semantic_fusion_witness :
    wr3.final_score
      = some ((2/5 : ℚ) * keyword_match "react" (mkSkill wr3.name wr3.description wr3.keywords)
              + (3/5 : ℚ) * (9/10)) ∧
    wr3.reason = some "close match" := by
  have hm : wr3 ∈ match_skills [skR] "react" true [ai3] := by
    have h : match_skills [skR] "react" true [ai3] = [wr3] := rfl
    rw [h]
    exact List.mem_singleton.mpr rfl
  exact C3_semantic_fusion [skR] "react" [ai3] wr3 ai3 (9/10) "close match"
    (by simp) hm rfl rfl rfl

/-- C6 counterexample: a matching run does not leave the catalog record
unchanged — the run writes the `keyword_score` (and `final_score`) fields
into the record in place, so the record after the run differs from its
value before the run. -/
theorem C6_counterexample : match_skills [sk6] "alpha" false [] ≠ [sk6] := by
  intro h
  have h2 : ((match_skills [sk6] "alpha" false []).map (fun r => r.keyword_score.isSome))
      = [true] := rfl
  rw [h] at h2
  simp [sk6, mkSkill] at h2

/-- C6 (amended): a matching run leaves every catalog record's `name`,
`description` and `keywords` unchanged — the output records' catalog fields
are a permutation of the input's — but the records are mutated in place by
the scoring fields, as the counterexample shows. -/
theorem C6_catalog_fields_preserved (catalog : List Skill) (task : String)
    (use_ai : Bool) (ai : List AIEntry) :
    ((match_skills catalog task use_ai ai).map baseOf).Perm (catalog.map baseOf) := by
  unfold match_skills
  split
  · rename_i h
    rw [List.isEmpty_iff.mp h]
  · have hfuse : ∀ l : List Skill,
        (fuse use_ai ai l).map baseOf = l.map baseOf := by
      intro l
      rw [fuse_eq_map, List.map_map]
      exact List.map_congr_left (fun s _ => baseOf_fuseOne use_ai ai s)
    have hscore : (scoreStep task catalog).map baseOf = catalog.map baseOf := by
      unfold scoreStep
      rw [List.map_map]
      exact List.map_congr_left (fun s _ => rfl)
    refine ((sortDesc_perm _ _).map baseOf).trans ?_
    rw [hfuse]
    refine ((sortDesc_perm _ _).map baseOf).trans ?_
    rw [hscore]

/-! ### Helper lemmas about the plan composer. -/

lemma n_append_ne_empty (s : String) : ("n" ++ s) ≠ "" := by
  intro h
  have h2 := congrArg String.data h
  rw [String.data_append] at h2
  simp at h2

lemma compose_dag_go_length (skills : List Skill) (i : Nat) (prev : Option String) :
    (compose_dag_go i prev skills).length = skills.length := by
  induction skills generalizing i prev with
  | nil => rfl
  | cons s rest ih => simp [compose_dag_go, ih]

lemma compose_dag_go_get (skills : List Skill) (i : Nat) (prev : Option String)
    (j : Nat) (hj : j < (compose_dag_go i prev skills).length) :
    ((compose_dag_go i prev skills).get ⟨j, hj⟩).id = "n" ++ toString (i + j) ∧
    ((compose_dag_go i prev skills).get ⟨j, hj⟩).depends =
      (if j = 0 then
        (match prev with | some p => if p = "" then [] else [p] | none => [])
       else ["n" ++ toString (i + j - 1)]) := by
  induction skills generalizing i prev j with
  | nil => simp [compose_dag_go] at hj
  | cons s rest ih =>
    cases j with
    | zero => exact ⟨by simp [compose_dag_go], by simp [compose_dag_go]⟩
    | succ j' =>
      have h := ih (i + 1) (some ("n" ++ toString i)) j'
        (by
          have hlen : (compose_dag_go i prev (s :: rest)).length = rest.length + 1 := by
            simp [compose_dag_go, compose_dag_go_length]
          rw [hlen] at hj
          rw [compose_dag_go_length]
          omega)
      have hget : (compose_dag_go i prev (s :: rest)).get ⟨j' + 1, hj⟩ =
          (compose_dag_go (i + 1) (some ("n" ++ toString i)) rest).get
            ⟨j', by
              have hlen : (compose_dag_go i prev (s :: rest)).length = rest.length + 1 := by
                simp [compose_dag_go, compose_dag_go_length]
              rw [hlen] at hj
              rw [compose_dag_go_length]
              omega⟩ := by
        simp [compose_dag_go]
      rw [hget]
      constructor
      · rw [h.1]
        have : i + 1 + j' = i + (j' + 1) := by omega
        rw [this]
      · rw [h.2]
        cases j' with
        | zero =>
          rw [if_pos rfl, if_neg (by omega)]
          show (if ("n" ++ toString i) = "" then ([] : List String) else ["n" ++ toString i])
              = ["n" ++ toString (i + (0 + 1) - 1)]
          rw [if_neg (n_append_ne_empty (toString i))]
          have he : i + (0 + 1) - 1 = i := by omega
          rw [he]
        | succ j'' =>
          rw [if_neg (by omega), if_neg (by omega)]
          have : i + 1 + (j'' + 1) - 1 = i + (j'' + 1 + 1) - 1 := by omega
          rw [this]

/-- C8: for every ranked input of length `N`, the plan composer produces
exactly `N` nodes with sequential run-local ids `n0, n1, …`; node `0` has an
empty dependency list and every node `k > 0` depends on exactly the id of
node `k-1` — a strictly linear chain with no forward or self references. -/
theorem C8_plan_composer_chain (skills : List Skill) :
    (compose_dag skills).length = skills.length ∧
    ∀ j (hj : j < (compose_dag skills).length),
      ((compose_dag skills).get ⟨j, hj⟩).id = "n" ++ toString j ∧
      ((compose_dag skills).get ⟨j, hj⟩).depends =
        (if j = 0 then [] else ["n" ++ toString (j - 1)]) := by
  constructor
  · exact compose_dag_go_length skills 0 none
  · intro j hj
    unfold compose_dag
    have h := compose_dag_go_get skills 0 none j hj
    constructor
    · rw [h.1, Nat.zero_add]
    · rw [h.2]
      by_cases hz : j = 0
      · rw [if_pos hz, if_pos hz]
      · rw [if_neg hz, if_neg hz, Nat.zero_add]

/-- Witness for `C8_plan_composer_chain` on a two-skill input. -/
theorem C8_plan_composer_chain_witness :
    (compose_dag [sk6, skR]).length = [sk6, skR].length ∧
    ((compose_dag [sk6, skR]).get ⟨1, by decide⟩).id = "n" ++ toString 1 ∧
    ((compose_dag [sk6, skR]).get ⟨1, by decide⟩).depends =
      (if 1 = 0 then [] else ["n" ++ toString (1 - 1)]) :=
  ⟨(C8_plan_composer_chain [sk6, skR]).1,
   ((C8_plan_composer_chain [sk6, skR]).2 1 (by decide)).1,
   ((C8_plan_composer_chain [sk6, skR]).2 1 (by decide)).2⟩

/-- C1 (code bug): in QUICK mode `run_quick` never assigns `total_steps`,
but `execute_skill` increments `current_step` and persists; the persisted
snapshots of a QUICK run over a one-skill catalog are `(0, 0)` and then
`(1, 0)` — the second snapshot has `currentStep = 1 > totalSteps = 0`,
violating the invariant that the claim states (STANDARD and DEEP set
`total_steps` before executing; QUICK does not). -/
theorem C1_quick_mode_invariant_violation :
    ((run [] [skR] [] "QUICK" "2025-01-01T00:00:00" "react").saved.map
      (fun c => (c.current_step, c.total_steps))) = [(0, 0), (1, 0)] := rfl

/-- C5 (amended): in EXPERT mode, when some stored template's trigger
pattern is a case-insensitive substring of the task, the orchestrator
executes the template (a logged placeholder execution of the template as a
whole — the stored plan's steps are not individually executed, no skill is
executed and `current_step` stays 0) and never invokes the matching/scoring
pipeline for that run. -/
theorem C5_expert_template_short_circuit (templates : List Template)
    (catalog : List Skill) (ai : List AIEntry) (now task : String) (tpl : Template)
    (hfind : find_template templates task = some tpl) :
    (Event.templateExecuted tpl.name) ∈ (run templates catalog ai "EXPERT" now task).events ∧
    ((run templates catalog ai "EXPERT" now task).events.any isMatchInvoked) = false ∧
    ((run templates catalog ai "EXPERT" now task).events.any isSkillExecuted) = false ∧
    (run templates catalog ai "EXPERT" now task).ctx.current_step = 0 := by
  have hrun : run templates catalog ai "EXPERT" now task =
      log_execution "Completed orchestration"
        (run_expert templates now catalog ai task
          (log_execution ("Started orchestration: " ++ strTake task 50)
            (save_context
              { mode := strUpper "EXPERT",
                ctx := { task := task, mode := strUpper "EXPERT", started_at := now } }))) := by
    unfold run
    rw [if_neg (by decide), if_neg (by decide), if_neg (by decide), if_pos (by decide)]
  rw [hrun]
  unfold run_expert
  rw [hfind]
  unfold execute_template log_execution save_context
  refine ⟨?_, ?_, ?_, rfl⟩
  · simp
  · simp [isMatchInvoked]
  · simp [isSkillExecuted]

/-- Witness for `C5_expert_template_short_circuit` at the template `tpl5`
and the task `"please DEPLOY now"`. -/
theorem C5_expert_template_short_circuit_witness :
    (Event.templateExecuted tpl5.name)
      ∈ (run [tpl5] [skR] [] "EXPERT" "t0" "please DEPLOY now").events ∧
    ((run [tpl5] [skR] [] "EXPERT" "t0" "please DEPLOY now").events.any isMatchInvoked) = false ∧
    ((run [tpl5] [skR] [] "EXPERT" "t0" "please DEPLOY now").events.any isSkillExecuted) = false ∧
    (run [tpl5] [skR] [] "EXPERT" "t0" "please DEPLOY now").ctx.current_step = 0 :=
  C5_expert_template_short_circuit [tpl5] [skR] [] "t0" "please DEPLOY now" tpl5 rfl

/-- C5 counterexample: at the same input a matching template is found and
its stored plan has two nodes, yet the run executes no skill at all and the
persisted `current_step` stays `0` — the template's stored plan steps are
not run, contradicting the claim that "the plan's steps are run". -/
theorem C5_counterexample :
    find_template [tpl5] "please DEPLOY now" = some tpl5 ∧
    tpl5.dag.length = 2 ∧
    ((run [tpl5] [skR] [] "EXPERT" "t0" "please DEPLOY now").events.any isSkillExecuted) = false ∧
    (run [tpl5] [skR] [] "EXPERT" "t0" "please DEPLOY now").ctx.current_step = 0 :=
  ⟨rfl, rfl, rfl, rfl⟩

/-- C9: the semantic ranker adapter returns the empty sequence — rather
than propagating an error — on every failure path: missing library, missing
credentials, API error, or a response that fails to parse as JSON after
stripping surrounding code-fence markers; when everything succeeds it
returns the parsed entries. -/
theorem C9_adapter_returns_empty_on_failure (env : GeminiEnv) :
    (env.genai_available = false → semantic_match_gemini env = []) ∧
    (env.api_key = none → semantic_match_gemini env = []) ∧
    (∀ msg, env.response = Except.error msg → semantic_match_gemini env = []) ∧
    (∀ text msg, env.response = Except.ok text →
      env.parse (stripFences text) = Except.error msg → semantic_match_gemini env = []) ∧
    (∀ text entries, env.response = Except.ok text →
      env.parse (stripFences text) = Except.ok entries →
      env.genai_available = true → env.api_key ≠ none →
      semantic_match_gemini env = entries) := by
  obtain ⟨av, key, resp, parse⟩ := env
  refine ⟨?_, ?_, ?_, ?_, ?_⟩
  · intro h
    subst h
    rfl
  · intro h
    subst h
    cases av <;> rfl
  · intro msg h
    subst h
    cases av <;> cases key <;> rfl
  · intro text msg hresp hparse
    subst hresp
    cases av with
    | false => rfl
    | true =>
      cases key with
      | none => rfl
      | some k =>
        have hp : parse (stripFences text) = Except.error msg := hparse
        simp only [semantic_match_gemini]
        rw [hp]
        rfl
  · intro text entries hresp hparse hav hkey
    subst hresp
    subst hav
    cases key with
    | none => exact absurd rfl hkey
    | some k =>
      have hp : parse (stripFences text) = Except.ok entries := hparse
      simp only [semantic_match_gemini]
      rw [hp]
      rfl

/-- Witness for `C9_adapter_returns_empty_on_failure`, discharging every
failure path and the success path at concrete environments. -/
theorem C9_adapter_returns_empty_on_failure_witness :
    semantic_match_gemini envNoLib = [] ∧ semantic_match_gemini envNoKey = [] ∧
    semantic_match_gemini envApiErr = [] ∧ semantic_match_gemini envBadJson = [] ∧
    semantic_match_gemini envOk = [] :=
  ⟨(C9_adapter_returns_empty_on_failure envNoLib).1 rfl,
   (C9_adapter_returns_empty_on_failure envNoKey).2.1 rfl,
   (C9_adapter_returns_empty_on_failure envApiErr).2.2.1 "network down" rfl,
   (C9_adapter_returns_empty_on_failure envBadJson).2.2.2.1 "not json at all" "bad json" rfl rfl,
   (C9_adapter_returns_empty_on_failure envOk).2.2.2.2 "[]" [] rfl rfl rfl (by simp [envOk])⟩

end SFO
